import Mathlib

/-
Verification development for the HiveXplore posts cache
(src/utils/posts_cache.py).  The definitions below are a shallow
embedding of the cache subsystem: posts are records with the fields the
cache interprets, feed entries mirror the per-feed dictionaries, the
per-feed seen-ID sets are finite sets of strings, and the stateful
methods become pure state-transition functions.  Impure inputs (the
current time, the synthesized fallback ids, the outcome of the Fetcher
call) are passed as explicit parameters.
-/

namespace HiveXplore

/-- A post dictionary, restricted to the fields the cache interprets.
The id may be absent (Python: key missing or falsy). -/
structure Post where
  id : Option String
  title : String
  author : Option String
  permlink : Option String
  tags : List String
  deriving Repr, DecidableEq

/-- The id the cache reads from a post (empty string when absent). -/
def pid (p : Post) : String := p.id.getD ""

/-- Lines 635-640 of posts_cache.py: if a post has no id (missing or
falsy), synthesize author-permlink when both are present, else a fresh
impure string (time plus object id), here passed in as a parameter. -/
def ensureId (fresh : String) (p : Post) : Post :=
  if pid p = "" then
    match p.author, p.permlink with
    | some a, some pl => { p with id := some (a ++ "-" ++ pl) }
    | _, _ => { p with id := some fresh }
  else p

/-- Apply ensureId to every post of the batch, feeding each position its
own fresh fallback string. -/
def ensureIds (fresh : Nat → String) (l : List Post) : List Post :=
  l.enum.map (fun ip => ensureId (fresh ip.1) ip.2)

/-- Line 624: a post survives the filter iff its title is truthy. -/
def titled (p : Post) : Bool := p.title != ""

/-- One in-memory feed entry (the per-feed dict of PostsCache.cache and
PostsCache.tag_cache).  last_updated is an abstract timestamp. -/
structure FeedEntry where
  posts : List Post
  new_posts : List Post
  last_updated : Option Nat
  updating : Bool
  deriving Repr, DecidableEq

/-- The entry every main feed starts with (lines 47-72). -/
def emptyEntry : FeedEntry := ⟨[], [], none, false⟩

/-- Lines 631-645 of _refresh_feed: walk the fetched posts in order,
collecting those whose id is not in the current seen set and inserting
each collected id into the set as it goes. -/
def classifyNew : Finset String → List Post → List Post × Finset String
  | seen, [] => ([], seen)
  | seen, p :: rest =>
    if pid p ∈ seen then classifyNew seen rest
    else
      let r := classifyNew (insert (pid p) seen) rest
      (p :: r.1, r.2)

/-- Result of one _refresh_feed call on one feed key: the entry after
the call, the seen-ID set after the call, and whether the Fetcher was
invoked at all. -/
structure RefreshOutcome where
  entry : FeedEntry
  seen : Finset String
  fetched : Bool
  deriving DecidableEq

/-- Lines 553-699, _refresh_feed restricted to one feed key.  The guard
(line 573) drops the call when the entry is already updating unless
block is set.  The Fetcher outcome is a parameter: ok with the raw list,
or error when the call raised.  The try/except/finally structure makes
the function total: an exception from the Fetcher yields a normal
outcome with the updating flag cleared, never a propagated error. -/
def refresh_feed (fresh : Nat → String) (now : Nat)
    (startup_complete block : Bool) (seen : Finset String) (e : FeedEntry)
    (fetch : Except Unit (List Post)) : RefreshOutcome :=
  if e.updating && !block then ⟨e, seen, false⟩
  else
    match fetch with
    | .error _ => ⟨{ e with updating := false }, seen, true⟩
    | .ok raw =>
      let posts := ensureIds fresh (raw.filter titled)
      if posts.isEmpty then ⟨{ e with updating := false }, seen, true⟩
      else
        let c := classifyNew seen posts
        if !c.1.isEmpty && !startup_complete then
          ⟨⟨posts, e.new_posts, some now, false⟩, c.2, true⟩
        else
          ⟨⟨e.posts, e.new_posts ++ c.1, some now, false⟩, c.2, true⟩

/-- Lines 701-734, merge_new_posts at the level of one feed entry.
The none case stands for an unknown feed key, where
cache.get(feed_type, eta) yields an empty dict and the method returns 0
without touching anything.  Returns the updated entry (if any) and the
merged count. -/
def merge_new_posts : Option FeedEntry → Option FeedEntry × Nat
  | none => (none, 0)
  | some e =>
    if e.new_posts.isEmpty then (some e, 0)
    else (some ⟨e.new_posts ++ e.posts, [], e.last_updated, e.updating⟩,
      e.new_posts.length)

/-- Maximum age of cache files in seconds (line 24). -/
def MAX_CACHE_AGE : Nat := 3600 * 12

/-- The on-disk snapshot structure written by _save_cache_to_file
(lines 239-254).  last_updated is always written (the entry timestamp,
or now when the entry has none).  On disk post_ids is a JSON list that
the loader immediately turns back into a set, so it is embedded by its
set content; it is optional because the loader tolerates its absence. -/
structure Snapshot where
  posts : List Post
  new_posts : List Post
  last_updated : Nat
  feed_type : String
  tag : Option String
  count : Nat
  new_count : Nat
  post_ids : Option (Finset String)
  deriving DecidableEq

/-- Lines 200-265, _save_cache_to_file for a main feed (tag absent).
Given the feed entry (none for a key missing from the cache dict) and
the feed key seen-ID set, returns the snapshot written, or none when
nothing is written.  The method returns early, writing nothing, when the
key is unknown or the posts list is empty (line 228). -/
def save_cache_to_file (now : Nat) (feed_type : String)
    (entry : Option FeedEntry) (seen : Finset String) : Option Snapshot :=
  match entry with
  | none => none
  | some e =>
    if e.posts.isEmpty then none
    else some
      { posts := e.posts
        new_posts := e.new_posts
        last_updated := e.last_updated.getD now
        feed_type := feed_type
        tag := none
        count := e.posts.length
        new_count := e.new_posts.length
        post_ids := some seen }

/-- Lines 113-198, _load_cache_from_file for a main feed.  Inputs: the
current time, the snapshot file modification time, the file content
(none when the file does not exist), and the current in-memory entry and
seen set.  Returns the in-memory entry and seen set after the call plus
the success flag.  A file older than MAX_CACHE_AGE is rejected (line
132).  On success the loader overwrites posts, last_updated and the
seen-ID set (from post_ids when present, else rebuilt from the loaded
posts that carry an id) and touches nothing else. -/
def load_cache_from_file (now fileMtime : Nat) (snap : Option Snapshot)
    (e : FeedEntry) (seen : Finset String) :
    FeedEntry × Finset String × Bool :=
  match snap with
  | none => (e, seen, false)
  | some s =>
    if MAX_CACHE_AGE < now - fileMtime then (e, seen, false)
    else
      let seenNew :=
        match s.post_ids with
        | some ids => ids
        | none => (s.posts.filterMap Post.id).toFinset
      ({ e with posts := s.posts, last_updated := some s.last_updated },
        seenNew, true)

/-- The in-memory maps of PostsCache that the read path consults: the
main feed cache and the tag cache, as association lists. -/
structure CacheState where
  cache : List (String × FeedEntry)
  tag_cache : List (String × FeedEntry)
  deriving DecidableEq

/-- Python dict .get on the association list. -/
def lookupEntry (m : List (String × FeedEntry)) (k : String) :
    Option FeedEntry :=
  (m.find? (fun kv => kv.1 == k)).map (fun kv => kv.2)

/-- The four main feeds created by PostsCache at construction
(lines 47-72). -/
def initialCache : List (String × FeedEntry) :=
  [("trending", emptyEntry), ("hot", emptyEntry),
    ("new", emptyEntry), ("promoted", emptyEntry)]

/-- Lines 361-482, the pure read result of get_posts.  timeoutGiven
models whether the caller passed a timeout value; the startup polling
loop (lines 461-470) does not change which state is read in this
single-state model and is embedded separately as startupWaitSleeps.  The
error value models the KeyError that line 454 raises by indexing
self.cache directly with an unknown feed_type when a timeout is given
and the selected posts list is empty. -/
def get_posts (st : CacheState) (feed_type : String) (tag : Option String)
    (limit : Nat) (timeoutGiven include_new new_only : Bool) :
    Except Unit (List Post) :=
  match tag with
  | some t =>
    let cache_key := feed_type ++ "_" ++ t
    let mainPosts :=
      ((lookupEntry st.cache feed_type).map FeedEntry.posts).getD []
    let fallback := mainPosts.filter (fun p => p.tags.contains t)
    match lookupEntry st.tag_cache cache_key with
    | some e =>
      if e.posts.isEmpty then .ok (fallback.take limit)
      else
        let sel :=
          if new_only then e.new_posts
          else if include_new then e.posts ++ e.new_posts
          else e.posts
        .ok (sel.take limit)
    | none => .ok (fallback.take limit)
  | none =>
    let me := lookupEntry st.cache feed_type
    let sel :=
      if new_only then (me.map FeedEntry.new_posts).getD []
      else if include_new then
        (me.map FeedEntry.posts).getD []
          ++ (me.map FeedEntry.new_posts).getD []
      else (me.map FeedEntry.posts).getD []
    if timeoutGiven && sel.isEmpty then
      match me with
      | none => .error ()
      | some _ => .ok (sel.take limit)
    else .ok (sel.take limit)

/-- Fuel-bounded form of the startup polling loop of get_posts.  k
counts completed 0.2-second sleeps; hasPosts k and stillUpdating k give
the values the loop body would observe after k sleeps. -/
def waitLoopGo (hasPosts stillUpdating : Nat → Bool) :
    Nat → Nat → Nat
  | 0, k => k
  | n + 1, k =>
    if hasPosts k || !stillUpdating k then k
    else waitLoopGo hasPosts stillUpdating n (k + 1)

/-- Lines 461-470 of get_posts: wait_time starts at 0 and the loop
sleeps 0.2 s per iteration while posts are absent, the entry is
updating, and wait_time is below the fixed max_wait_time of 3 seconds —
so at most 15 sleeps.  The caller-supplied timeout value does not occur
in the loop at all; it only gates entry to the block as a boolean.
Returns the number of sleeps performed. -/
def startupWaitSleeps (hasPosts stillUpdating : Nat → Bool) : Nat :=
  waitLoopGo hasPosts stillUpdating 15 0

/-- Concrete post with id a, used in witnesses and counterexamples. -/
def pA : Post := ⟨some "a", "ta", none, none, ["foo"]⟩

/-- Concrete post with id b. -/
def pB : Post := ⟨some "b", "tb", none, none, []⟩

/-- Concrete post with id c. -/
def pC : Post := ⟨some "c", "tc", none, none, []⟩

/-- Concrete cache state: main feed trending holds pA (tagged foo), and
the tag feed trending_foo exists with empty posts and one buffered new
post pB. -/
def stTag : CacheState :=
  ⟨[("trending", ⟨[pA], [], none, false⟩)],
    [("trending_foo", ⟨[], [pB], none, false⟩)]⟩

/- ------------------------------------------------------------------
   Helper lemmas
   ------------------------------------------------------------------ -/

theorem ensureId_of_pid_ne (fresh : String) (p : Post) (h : pid p ≠ "") :
    ensureId fresh p = p := by
  simp [ensureId, h]

theorem ensureIds_enumFrom (fresh : Nat → String) :
    ∀ (l : List Post) (n : Nat), (∀ p ∈ l, pid p ≠ "") →
      (List.enumFrom n l).map (fun ip => ensureId (fresh ip.1) ip.2) = l
  | [], _, _ => rfl
  | p :: rest, n, h => by
    have hp : pid p ≠ "" := h p (List.mem_cons_self p rest)
    have ih := ensureIds_enumFrom fresh rest (n + 1)
      (fun q hq => h q (List.mem_cons_of_mem p hq))
    simp [List.enumFrom, ensureId_of_pid_ne (fresh n) p hp, ih]

theorem ensureIds_eq_self (fresh : Nat → String) (l : List Post)
    (h : ∀ p ∈ l, pid p ≠ "") : ensureIds fresh l = l := by
  unfold ensureIds List.enum
  exact ensureIds_enumFrom fresh l 0 h

theorem classifyNew_all_seen :
    ∀ (S : Finset String) (F : List Post),
      (∀ p ∈ F, pid p ∈ S) → classifyNew S F = ([], S)
  | _, [], _ => rfl
  | S, p :: rest, h => by
    have hp : pid p ∈ S := h p (List.mem_cons_self p rest)
    have ih := classifyNew_all_seen S rest
      (fun q hq => h q (List.mem_cons_of_mem p hq))
    simp [classifyNew, hp, ih]

theorem classifyNew_nodup :
    ∀ (S : Finset String) (F : List Post), (F.map pid).Nodup →
      classifyNew S F
        = (F.filter (fun p => decide (pid p ∉ S)),
          S ∪ (F.map pid).toFinset)
  | S, [], _ => by simp [classifyNew]
  | S, p :: rest, h => by
    have hp : pid p ∉ rest.map pid := by
      have := h
      simp only [List.map_cons, List.nodup_cons] at this
      exact this.1
    have hrest : (rest.map pid).Nodup := by
      simp only [List.map_cons, List.nodup_cons] at h
      exact h.2
    by_cases hS : pid p ∈ S
    · have ih := classifyNew_nodup S rest hrest
      simp only [classifyNew, if_pos hS, ih, List.map_cons,
        List.toFinset_cons]
      simp [List.filter_cons, hS, Prod.mk.injEq, Finset.union_insert,
        Finset.insert_eq_self.mpr (Finset.mem_union_left _ hS)]
    · have ih := classifyNew_nodup (insert (pid p) S) rest hrest
      have hfil : rest.filter (fun q => decide (pid q ∉ insert (pid p) S))
          = rest.filter (fun q => decide (pid q ∉ S)) := by
        apply List.filter_congr
        intro q hq
        have hne : pid q ≠ pid p := by
          intro hcontra
          exact hp (hcontra ▸ List.mem_map_of_mem pid hq)
        simp [Finset.mem_insert, hne, hS]
      simp only [classifyNew, if_neg hS, ih, hfil, List.map_cons,
        List.toFinset_cons]
      simp [List.filter_cons, hS, Prod.mk.injEq, Finset.insert_union,
        Finset.union_insert]

/- ------------------------------------------------------------------
   Claim theorems
   ------------------------------------------------------------------ -/

/-- C1: after startup is complete, a refresh classifies as new exactly
the fetched posts whose id is not in the seen set S, appends them in
fetched order to new_posts (keeping the existing new_posts), grows the
seen set to S union ids(F), leaves posts untouched, and a second refresh
with the same fetched list classifies nothing as new. -/
theorem refresh_new_classification (fresh : Nat → String) (now : Nat)
    (S : Finset String) (e : FeedEntry) (F : List Post)
    (hupd : e.updating = false)
    (htitle : ∀ p ∈ F, titled p = true)
    (hid : ∀ p ∈ F, pid p ≠ "")
    (hnodup : (F.map pid).Nodup) :
    (refresh_feed fresh now true false S e (.ok F)).entry.new_posts
        = e.new_posts ++ F.filter (fun p => decide (pid p ∉ S))
      ∧ (refresh_feed fresh now true false S e (.ok F)).entry.posts = e.posts
      ∧ (refresh_feed fresh now true false S e (.ok F)).seen
        = S ∪ (F.map pid).toFinset
      ∧ (refresh_feed fresh now true false
            (refresh_feed fresh now true false S e (.ok F)).seen
            (refresh_feed fresh now true false S e (.ok F)).entry
            (.ok F)).entry.new_posts
        = (refresh_feed fresh now true false S e (.ok F)).entry.new_posts := by
  have hfil : F.filter titled = F := List.filter_eq_self.mpr htitle
  have hens : ensureIds fresh F = F := ensureIds_eq_self fresh F hid
  rcases F with _ | ⟨q, rest⟩
  · simp [refresh_feed, hupd, ensureIds]
  · have hclass := classifyNew_nodup S (q :: rest) hnodup
    have hall : classifyNew (S ∪ ((q :: rest).map pid).toFinset) (q :: rest)
        = ([], S ∪ ((q :: rest).map pid).toFinset) :=
      classifyNew_all_seen _ _ (fun p hp =>
        Finset.mem_union_right _ (List.mem_toFinset.mpr
          (List.mem_map_of_mem pid hp)))
    have hall2 : classifyNew (insert (pid q) (S ∪ (rest.map pid).toFinset))
          (q :: rest)
        = ([], insert (pid q) (S ∪ (rest.map pid).toFinset)) :=
      classifyNew_all_seen _ _ (fun p hp => by
        rcases List.mem_cons.mp hp with h1 | h1
        · subst h1
          exact Finset.mem_insert_self _ _
        · exact Finset.mem_insert_of_mem (Finset.mem_union_right _
            (List.mem_toFinset.mpr (List.mem_map_of_mem pid h1))))
    simp [refresh_feed, hupd, hfil, hens, hclass, hall, hall2]

/-- Witness for C1 at a concrete input. -/
theorem refresh_new_classification_witness :
    (refresh_feed (fun _ => "f") 7 true false {"a"}
        ⟨[pA], [], none, false⟩ (.ok [pA, pC])).entry.new_posts
      = [] ++ [pA, pC].filter
          (fun p => decide (pid p ∉ ({"a"} : Finset String))) :=
  (refresh_new_classification (fun _ => "f") 7 {"a"}
    ⟨[pA], [], none, false⟩ [pA, pC] rfl (by decide) (by decide)
    (by decide)).1

/-- C2: merge_new_posts moves exactly the current new_posts to the front
of posts, empties new_posts and returns the number moved; it returns 0
and changes nothing for an unknown key or an empty new_posts, so a
second call with no intervening refresh returns 0. -/
theorem merge_new_posts_spec :
    merge_new_posts none = (none, 0)
    ∧ (∀ e : FeedEntry, merge_new_posts (some e)
        = (some ⟨e.new_posts ++ e.posts, [], e.last_updated, e.updating⟩,
          e.new_posts.length))
    ∧ (∀ e : FeedEntry, e.new_posts = [] →
        merge_new_posts (some e) = (some e, 0))
    ∧ (∀ o : Option FeedEntry,
        (merge_new_posts (merge_new_posts o).1).2 = 0) := by
  refine ⟨rfl, ?_, ?_, ?_⟩
  · intro e
    by_cases h : e.new_posts = []
    · cases e
      simp_all [merge_new_posts]
    · simp [merge_new_posts, List.isEmpty_iff, h]
  · intro e h
    simp [merge_new_posts, h]
  · intro o
    rcases o with _ | e
    · rfl
    · by_cases h : e.new_posts = [] <;>
        simp [merge_new_posts, List.isEmpty_iff, h]

/-- Witness for C2: the empty-new_posts clause at a concrete entry. -/
theorem merge_new_posts_spec_witness :
    merge_new_posts (some ⟨[pA], [], some 4, false⟩)
      = (some ⟨[pA], [], some 4, false⟩, 0) :=
  merge_new_posts_spec.2.2.1 ⟨[pA], [], some 4, false⟩ rfl

/-- C5: when the Fetcher raises during a refresh that actually runs, the
entry posts, new_posts, last_updated and the seen set are unchanged, the
updating flag ends false, and the model is total (the exception is
swallowed by the except block, never propagated). -/
theorem refresh_fetch_error_preserves_state (fresh : Nat → String)
    (now : Nat) (sc block : Bool) (S : Finset String) (e : FeedEntry)
    (h : e.updating = false ∨ block = true) :
    (refresh_feed fresh now sc block S e (.error ())).entry.posts = e.posts
    ∧ (refresh_feed fresh now sc block S e (.error ())).entry.new_posts
      = e.new_posts
    ∧ (refresh_feed fresh now sc block S e (.error ())).entry.last_updated
      = e.last_updated
    ∧ (refresh_feed fresh now sc block S e (.error ())).entry.updating
      = false
    ∧ (refresh_feed fresh now sc block S e (.error ())).seen = S := by
  rcases h with h | h <;> simp [refresh_feed, h]

/-- Witness for C5 at a concrete input. -/
theorem refresh_fetch_error_preserves_state_witness :
    (refresh_feed (fun _ => "f") 3 true false {"a"}
        ⟨[pA], [pB], some 1, false⟩ (.error ())).entry.posts = [pA]
    ∧ (refresh_feed (fun _ => "f") 3 true false {"a"}
        ⟨[pA], [pB], some 1, false⟩ (.error ())).entry.new_posts = [pB]
    ∧ (refresh_feed (fun _ => "f") 3 true false {"a"}
        ⟨[pA], [pB], some 1, false⟩ (.error ())).entry.last_updated = some 1
    ∧ (refresh_feed (fun _ => "f") 3 true false {"a"}
        ⟨[pA], [pB], some 1, false⟩ (.error ())).entry.updating = false
    ∧ (refresh_feed (fun _ => "f") 3 true false {"a"}
        ⟨[pA], [pB], some 1, false⟩ (.error ())).seen = {"a"} :=
  refresh_fetch_error_preserves_state (fun _ => "f") 3 true false {"a"}
    ⟨[pA], [pB], some 1, false⟩ (Or.inl rfl)

/-- C6 counterexample: with block set (the startup path of
_load_priority_feeds), a refresh for an entry already marked updating is
not dropped: the Fetcher is invoked and state changes. -/
theorem refresh_blocking_overrides_guard_cex :
    (⟨[pA], [], none, true⟩ : FeedEntry).updating = true
    ∧ (refresh_feed (fun _ => "f") 0 true true {"x"}
        ⟨[pA], [], none, true⟩ (.ok [pC])).fetched = true
    ∧ (refresh_feed (fun _ => "f") 0 true true {"x"}
        ⟨[pA], [], none, true⟩ (.ok [pC])).entry.new_posts = [pC] := by
  decide

/-- C6 amended: a non-blocking refresh request for a key already marked
updating is dropped without invoking the Fetcher and without changing
any state. -/
theorem refresh_nonblocking_dropped_when_updating (fresh : Nat → String)
    (now : Nat) (sc : Bool) (S : Finset String) (e : FeedEntry)
    (fetch : Except Unit (List Post)) (h : e.updating = true) :
    refresh_feed fresh now sc false S e fetch = ⟨e, S, false⟩ := by
  simp [refresh_feed, h]

/-- Witness for the amended C6 at a concrete input. -/
theorem refresh_nonblocking_dropped_when_updating_witness :
    refresh_feed (fun _ => "f") 9 true false {"a"}
        ⟨[pA], [pB], some 2, true⟩ (.ok [pC])
      = ⟨⟨[pA], [pB], some 2, true⟩, {"a"}, false⟩ :=
  refresh_nonblocking_dropped_when_updating (fun _ => "f") 9 true {"a"}
    ⟨[pA], [pB], some 2, true⟩ (.ok [pC]) rfl

/-- C3 counterexample: before startup completion, a refresh whose
fetched posts are all already seen does not replace posts with the
fetched list (it takes the ordinary append path instead).  Here seen is
a-c, posts is pA, the fetch returns pC then pA, and posts stays pA. -/
theorem refresh_startup_no_replace_cex :
    (refresh_feed (fun _ => "f") 0 false false ({"a", "c"} : Finset String)
        ⟨[pA], [], none, false⟩ (.ok [pC, pA])).entry.posts = [pA]
    ∧ [pA] ≠ [pC, pA] := by
  decide

/-- C3 amended: before startup completion, a refresh whose fetched list
contains at least one not-yet-seen post replaces posts wholesale with
the fetched list, marks all fetched ids as seen, and leaves new_posts
unchanged; with no unseen fetched post the refresh takes the ordinary
append path and posts stays as it was. -/
theorem refresh_startup_replace (fresh : Nat → String) (now : Nat)
    (S : Finset String) (e : FeedEntry) (F : List Post)
    (hupd : e.updating = false)
    (htitle : ∀ p ∈ F, titled p = true)
    (hid : ∀ p ∈ F, pid p ≠ "")
    (hnodup : (F.map pid).Nodup)
    (hnew : ∃ p, p ∈ F ∧ pid p ∉ S) :
    (refresh_feed fresh now false false S e (.ok F)).entry.posts = F
    ∧ (refresh_feed fresh now false false S e (.ok F)).entry.new_posts
      = e.new_posts
    ∧ (refresh_feed fresh now false false S e (.ok F)).seen
      = S ∪ (F.map pid).toFinset := by
  have hfil : F.filter titled = F := List.filter_eq_self.mpr htitle
  have hens : ensureIds fresh F = F := ensureIds_eq_self fresh F hid
  have hclass := classifyNew_nodup S F hnodup
  obtain ⟨p, hpF, hpS⟩ := hnew
  have hmem : p ∈ F.filter (fun q => decide (pid q ∉ S)) :=
    List.mem_filter.mpr ⟨hpF, by simpa using hpS⟩
  have hne : F.filter (fun q => decide (pid q ∉ S)) ≠ [] :=
    List.ne_nil_of_mem hmem
  rcases F with _ | ⟨q, rest⟩
  · exact absurd hpF (List.not_mem_nil p)
  · have hcond : pid q ∈ S → ∃ x ∈ rest, pid x ∉ S := by
      intro hq
      rcases List.mem_cons.mp hpF with h1 | h1
      · subst h1
        exact absurd hq hpS
      · exact ⟨p, h1, hpS⟩
    simp [refresh_feed, hupd, hfil, hens, hclass, List.isEmpty_iff, hne]
    rw [if_pos hcond]
    exact ⟨rfl, rfl, rfl⟩

/-- Witness for the amended C3 at a concrete input. -/
theorem refresh_startup_replace_witness :
    (refresh_feed (fun _ => "f") 2 false false {"a"}
        ⟨[pA], [pB], none, false⟩ (.ok [pC])).entry.posts = [pC]
    ∧ (refresh_feed (fun _ => "f") 2 false false {"a"}
        ⟨[pA], [pB], none, false⟩ (.ok [pC])).entry.new_posts = [pB]
    ∧ (refresh_feed (fun _ => "f") 2 false false {"a"}
        ⟨[pA], [pB], none, false⟩ (.ok [pC])).seen
      = {"a"} ∪ (([pC].map pid).toFinset) :=
  refresh_startup_replace (fun _ => "f") 2 {"a"} ⟨[pA], [pB], none, false⟩
    [pC] rfl (by decide) (by decide) (by decide)
    ⟨pC, by decide, by decide⟩

/-- C4 (code bug): saving a feed entry that has buffered new posts and
loading the snapshot back well within the maximum age restores posts and
the seen-ID set, but the loader never reads the snapshot new_posts
field, so the in-memory new_posts are not reproduced: they stay empty
while the saved entry had pB buffered. -/
theorem save_load_drops_new_posts :
    (load_cache_from_file 300 250
        (save_cache_to_file 200 "trending"
          (some ⟨[pA], [pB], some 100, false⟩) {"a", "b"})
        emptyEntry ∅).2.2 = true
    ∧ (load_cache_from_file 300 250
        (save_cache_to_file 200 "trending"
          (some ⟨[pA], [pB], some 100, false⟩) {"a", "b"})
        emptyEntry ∅).1.posts = [pA]
    ∧ (load_cache_from_file 300 250
        (save_cache_to_file 200 "trending"
          (some ⟨[pA], [pB], some 100, false⟩) {"a", "b"})
        emptyEntry ∅).2.1 = {"a", "b"}
    ∧ (load_cache_from_file 300 250
        (save_cache_to_file 200 "trending"
          (some ⟨[pA], [pB], some 100, false⟩) {"a", "b"})
        emptyEntry ∅).1.new_posts = []
    ∧ (⟨[pA], [pB], some 100, false⟩ : FeedEntry).new_posts = [pB] := by
  decide

/-- C7 (code bug): with a timeout supplied and an unknown feed key,
get_posts raises (line 454 indexes self.cache directly), modelled by the
error result; with no timeout the same unknown key yields the empty
list. -/
theorem get_posts_unknown_key_timeout_raises :
    get_posts ⟨initialCache, []⟩ "blog" none 20 true false false
      = .error ()
    ∧ get_posts ⟨initialCache, []⟩ "blog" none 20 false false false
      = .ok [] :=
  ⟨rfl, rfl⟩

/-- C8 counterexample: for a tag feed whose entry exists but has an
empty posts list, get_posts with new_only set ignores the entry
new_posts and instead returns the main feed filtered by the tag. -/
theorem get_posts_tag_empty_posts_cex :
    lookupEntry stTag.tag_cache "trending_foo"
      = some ⟨[], [pB], none, false⟩
    ∧ get_posts stTag "trending" (some "foo") 20 false false true
      = .ok [pA]
    ∧ pA ≠ pB :=
  ⟨rfl, rfl, by decide⟩

/-- C8 amended: for main feed keys, and for tag feeds whose cached posts
list is non-empty, get_posts selects new_posts when new_only is set,
posts plus new_posts when include_new is set and posts otherwise, and an
unknown main key yields the empty list; tag feeds with an empty or
missing entry instead fall back to filtering the main feed by the tag;
in every case the returned list holds at most limit posts. -/
theorem get_posts_selection (st : CacheState) (ft : String) (limit : Nat)
    (inc newo : Bool) :
    (∀ e, lookupEntry st.cache ft = some e →
      get_posts st ft none limit false inc newo
        = .ok ((if newo then e.new_posts
            else if inc then e.posts ++ e.new_posts
            else e.posts).take limit))
    ∧ (lookupEntry st.cache ft = none →
        get_posts st ft none limit false inc newo = .ok [])
    ∧ (∀ t e, lookupEntry st.tag_cache (ft ++ "_" ++ t) = some e →
        e.posts ≠ [] →
        get_posts st ft (some t) limit false inc newo
          = .ok ((if newo then e.new_posts
              else if inc then e.posts ++ e.new_posts
              else e.posts).take limit))
    ∧ (∀ tag tg r, get_posts st ft tag limit tg inc newo = .ok r →
        r.length ≤ limit) := by
  refine ⟨?_, ?_, ?_, ?_⟩
  · intro e he
    simp [get_posts, he]
  · intro he
    simp [get_posts, he]
  · intro t e het hne
    simp [get_posts, het, List.isEmpty_iff, hne]
  · intro tag tg r h
    have hlen : ∀ l : List Post, List.take limit l = r →
        r.length ≤ limit := by
      intro l hl
      subst hl
      exact List.length_take_le limit l
    rcases tag with _ | t
    · rcases hm : lookupEntry st.cache ft with _ | e <;>
        cases tg <;> cases inc <;> cases newo <;>
        simp only [get_posts, hm] at h <;>
        simp at h <;>
        first
          | exact hlen _ h
          | exact hlen _ h.symm
          | (cases h; simp)
    · rcases hm : lookupEntry st.tag_cache (ft ++ "_" ++ t) with _ | e <;>
        simp only [get_posts, hm] at h
      · simp at h
        exact hlen _ h
      · by_cases hp : e.posts.isEmpty = true <;> simp [hp] at h <;>
          exact hlen _ h

/-- Witness for the amended C8: the new_only selection on a concrete
main feed. -/
theorem get_posts_selection_witness :
    get_posts stTag "trending" none 1 false false true = .ok [] :=
  (get_posts_selection stTag "trending" 1 false true).1
    ⟨[pA], [], none, false⟩ rfl

/-- C9 (code bug): the startup polling loop of get_posts sleeps in
0.2-second increments up to a fixed 3-second cap; the caller-supplied
timeout value never bounds it.  When posts never arrive and the entry
stays updating the loop performs 15 sleeps, 3 seconds of waiting, which
exceeds a caller timeout of half a second. -/
theorem startup_wait_exceeds_timeout :
    startupWaitSleeps (fun _ => false) (fun _ => true) = 15
    ∧ ((startupWaitSleeps (fun _ => false) (fun _ => true) : ℚ) * (1 / 5)
        > 1 / 2) := by
  have h15 : startupWaitSleeps (fun _ => false) (fun _ => true) = 15 := rfl
  refine ⟨h15, ?_⟩
  rw [h15]
  norm_num

/-- C10: _save_cache_to_file returns without writing anything when the
feed entry posts list is empty, whatever new_posts and the seen set
hold. -/
theorem save_skips_empty_posts (now : Nat) (ft : String) (e : FeedEntry)
    (seen : Finset String) (h : e.posts = []) :
    save_cache_to_file now ft (some e) seen = none := by
  simp [save_cache_to_file, h]

/-- Witness for C10: nothing is written even though new_posts and the
seen set are non-empty. -/
theorem save_skips_empty_posts_witness :
    save_cache_to_file 0 "hot" (some ⟨[], [pB], none, false⟩) {"b"}
      = none :=
  save_skips_empty_posts 0 "hot" ⟨[], [pB], none, false⟩ {"b"} rfl

end HiveXplore
